import Mathlib

set_option maxRecDepth 40000

/-!
Verification development for the Novum resume/job matching backend.

The Python sources under `backend/` (app.py, classifier.py) are shallowly
embedded here: Python strings are modelled as `List Char` (`Str`), floats as
`ℚ` where only field arithmetic and comparisons occur and as `ℝ` where the
similarity computation (sklearn cosine, involving square roots) is modelled,
fallible provider calls as `Option`/sum-shaped outcome parameters, and the
process-wide `lru_cache` as explicit state passing.
-/

namespace Novum

/-- Python strings are sequences of characters; we embed them as `List Char`
so that every operation is structurally recursive and kernel-evaluable. -/
abbrev Str := List Char

/-- View a Lean string literal as the embedded Python string. -/
def str (s : String) : Str := s.toList

/-- Python `str.strip()` / `.strip()` with no argument: remove leading and
trailing whitespace. -/
def pyStrip (cs : Str) : Str :=
  ((cs.dropWhile Char.isWhitespace).reverse.dropWhile Char.isWhitespace).reverse

/-- Python `str.lower()` (ASCII range, which covers every input considered). -/
def pyLower (cs : Str) : Str := cs.map Char.toLower

/-- Whether `pat` occurs at the start of `s` (helper for substring search). -/
def listStartsWith : Str → Str → Bool
  | [], _ => true
  | _ :: _, [] => false
  | p :: ps, c :: cs => p = c && listStartsWith ps cs

/-- Python `pat in hay` for strings: substring containment. -/
def strHasSub : Str → Str → Bool
  | [], pat => pat.isEmpty
  | c :: rest, pat => listStartsWith pat (c :: rest) || strHasSub rest pat

/-- Python `str.split()` with no argument: split on whitespace runs, dropping
empty pieces (auxiliary accumulator form, structurally recursive). -/
def pySplitWsAux : Str → Str → List Str
  | [], acc => if acc.isEmpty then [] else [acc.reverse]
  | c :: rest, acc =>
    if c.isWhitespace then
      if acc.isEmpty then pySplitWsAux rest [] else acc.reverse :: pySplitWsAux rest []
    else pySplitWsAux rest (c :: acc)

/-- Python `str.split()` with no argument. -/
def pySplitWs (cs : Str) : List Str := pySplitWsAux cs []

/-- Python `str.split(sep)` for a one-character separator, keeping empty
pieces (auxiliary accumulator form). -/
def pySplitCharAux : Str → Char → Str → List Str
  | [], _, acc => [acc.reverse]
  | c :: rest, sep, acc =>
    if c = sep then acc.reverse :: pySplitCharAux rest sep []
    else pySplitCharAux rest sep (c :: acc)

/-- Python `str.split(sep)` for a one-character separator. -/
def pySplitChar (sep : Char) (cs : Str) : List Str := pySplitCharAux cs sep []

/-- Python `s.replace(old, "")` where `old` is a single character: delete
every occurrence. -/
def pyRemoveChar (c : Char) (cs : Str) : Str := cs.filter (fun d => d ≠ c)

/-- Python `sep.join(xs)` for embedded strings. -/
def joinSep (sep : Str) : List Str → Str
  | [] => []
  | [x] => x
  | x :: y :: rest => x ++ sep ++ joinSep sep (y :: rest)

/-- Python `str.startswith(p)`. -/
def pyStartsWith (cs p : Str) : Bool := listStartsWith p cs

/-- Python `str.title()` restricted to the ASCII letters that occur in the
fixed vocabularies of the source: the first letter of each alphabetic run is
uppercased, the rest lowercased. -/
def pyTitleAux : Str → Bool → Str
  | [], _ => []
  | c :: rest, prevAlpha =>
    if c.isAlpha then
      (if prevAlpha then c.toLower else c.toUpper) :: pyTitleAux rest true
    else c :: pyTitleAux rest false

/-- Python `str.title()`. -/
def pyTitle (cs : Str) : Str := pyTitleAux cs false

/-!
## Embedding capability — `classifier.get_embedding`

`classifier.py` tries Vertex AI when the module-level `USE_VERTEX` flag is
set, then falls back to OpenAI; each provider call either yields a vector or
raises.  The backend configuration and per-call outcomes are the
`EmbedBackends` state; `none` models a call that raises (or, for OpenAI, an
unconfigured client, whose attribute access raises the same way).
-/

/-- Availability and per-call outcome of the two embedding providers. -/
structure EmbedBackends where
  useVertex : Bool
  vertexResult : Option (List ℚ)
  openaiResult : Option (List ℚ)

/-- Model of `classifier.get_embedding` (classifier.py lines 60–83).  Returns
the produced vector together with the number of provider invocations
attempted.  Empty or whitespace-only text short-circuits to `np.zeros(768)`
with no provider call; a Vertex failure falls through to OpenAI; an OpenAI
failure yields `np.zeros(1536)`.  No code path raises. -/
def get_embedding (b : EmbedBackends) (text : Str) : List ℚ × ℕ :=
  if pyStrip text = [] then (List.replicate 768 0, 0)
  else if b.useVertex then
    match b.vertexResult with
    | some v => (v, 1)
    | none =>
      match b.openaiResult with
      | some v => (v, 2)
      | none => (List.replicate 1536 0, 2)
  else
    match b.openaiResult with
    | some v => (v, 1)
    | none => (List.replicate 1536 0, 1)

/-- Modelled from the spec: the `active embedder backend's declared dimension`
of §3/§4.1 — 768 for the Vertex `text-embedding-004` backend, 1536 for the
OpenAI `text-embedding-3-small` fallback; the active backend is Vertex when
it is configured and reachable, OpenAI otherwise.  This definition follows
the spec's words and exists only to be compared with `get_embedding`. -/
def specActiveEmbedderDim (b : EmbedBackends) : ℕ :=
  if b.useVertex && b.vertexResult.isSome then 768 else 1536

/-- The dot product of two vectors, truncated to the shorter length
(componentwise, as numpy does on equal-length inputs). -/
def dotQ (v w : List ℚ) : ℚ := (List.zipWith (fun a b => a * b) v w).sum

/-- Model of `classifier.cosine_similarities` via sklearn's
`cosine_similarity`: each vector is normalised (a zero-norm vector is left
unchanged by sklearn's `normalize`), then the dot product is taken, so a zero
vector yields similarity `0`. -/
noncomputable def cosine_similarities (v w : List ℚ) : ℝ :=
  if dotQ v v = 0 ∨ dotQ w w = 0 then 0
  else ((dotQ v w : ℚ) : ℝ) /
    (Real.sqrt ((dotQ v v : ℚ) : ℝ) * Real.sqrt ((dotQ w w : ℚ) : ℝ))

/-- Python `round(x, 2)` (identical to round-half-even except at exact
half-cent boundaries, which no statement below touches). -/
noncomputable def roundTo2 (x : ℝ) : ℝ := ((round (x * 100) : ℤ) : ℝ) / 100

/-!
## Similarity threshold — `app.api_match` lines 856–863

```python
threshold_env = float(os.getenv("MATCH_THRESHOLD", "50"))
if threshold_env < 1:
    threshold_pct = threshold_env * 100
else:
    threshold_pct = threshold_env
threshold_pct = max(threshold_pct, 40.0)
```
-/

/-- The effective similarity threshold computed from the configured
environment value. -/
def effectiveThreshold (threshold_env : ℚ) : ℚ :=
  let threshold_pct := if threshold_env < 1 then threshold_env * 100 else threshold_env
  max threshold_pct 40

/-- The default of `os.getenv("MATCH_THRESHOLD", "50")`. -/
def MATCH_THRESHOLD_default : ℚ := 50

/-!
## Jobs and composite job text — `app.api_match` lines 752–766
-/

/-- A locally authored (admin-created) job as read from the catalog. -/
structure LocalJob where
  title : Str
  description : Str
  skills : List Str
  responsibilities : List Str
  qualifications : List Str
  location : Option Str

/-- The composite text `full_job_desc` assembled for a local job: the
description, then labelled skills / responsibilities / qualifications blocks,
each appended only when the corresponding list is non-empty. -/
def full_job_desc (j : LocalJob) : Str :=
  j.description
    ++ (if j.skills.isEmpty then [] else
        str ("\n\nRequired Skills: ") ++ joinSep (str (", ")) j.skills)
    ++ (if j.responsibilities.isEmpty then [] else
        str ("\n\nResponsibilities:\n") ++ joinSep (str ("\n")) j.responsibilities)
    ++ (if j.qualifications.isEmpty then [] else
        str ("\n\nQualifications:\n") ++ joinSep (str ("\n")) j.qualifications)

/-- An externally fetched job (already normalised by the fetch step). -/
structure ExtJob where
  title : Str
  description : Str
  location : Str

/-!
## Location / job-type filters — `app.api_match` lines 788–800 (local) and
816–824 (external)

```python
# local jobs
if preferred_location and loc and preferred_location not in loc: continue
if job_type and job_type != 'any' and job_type not in title_desc: continue
# external jobs
if preferred_location and preferred_location not in loc: continue
if job_type and job_type not in title_desc: continue
```
-/

/-- Whether a local job is skipped by the two post-hoc filters, given the
already lowercased location and title+description texts. -/
def local_filtered_out (preferred_location job_type loc title_desc : Str) : Bool :=
  (!preferred_location.isEmpty && !loc.isEmpty && !strHasSub loc preferred_location)
  || (!job_type.isEmpty && job_type ≠ str ("any") && !strHasSub title_desc job_type)

/-- Whether an external job is skipped by the two filters (note: no
`job_type != 'any'` exemption in the external branch of the source). -/
def external_filtered_out (preferred_location job_type loc title_desc : Str) : Bool :=
  (!preferred_location.isEmpty && !strHasSub loc preferred_location)
  || (!job_type.isEmpty && !strHasSub title_desc job_type)

/-- The lowercased location string of a local job (`""` when unset). -/
def localJobLoc (j : LocalJob) : Str := pyLower (j.location.getD [])

/-- The lowercased `title + " " + full_job_desc` text of a local job. -/
def localJobTitleDesc (j : LocalJob) : Str :=
  pyLower (j.title ++ str (" ") ++ full_job_desc j)

/-- The local-job filter applied to a `LocalJob`. -/
def local_job_filtered_out (preferred_location job_type : Str) (j : LocalJob) : Bool :=
  local_filtered_out preferred_location job_type (localJobLoc j) (localJobTitleDesc j)

/-- The external-job filter applied to an `ExtJob` (the source lowercases the
location and `title + " " + description`). -/
def external_job_filtered_out (preferred_location job_type : Str) (j : ExtJob) : Bool :=
  external_filtered_out preferred_location job_type (pyLower j.location)
    (pyLower (j.title ++ str (" ") ++ j.description))

/-!
## Stable descending sort

Python's `sorted(..., key=lambda x: -x["similarity"])` and
`sort(key=lambda x: x[1], reverse=True)` are stable sorts; a stable sort's
output is determined by the comparator, so the structurally recursive stable
insertion sort below computes the same list.
-/

/-- Insert `x` into a descending-sorted list, before the first element whose
key does not exceed `x`'s (keeps equal-key elements in input order). -/
def insertDescBy {α β : Type} [LinearOrder β] (key : α → β) (x : α) : List α → List α
  | [] => [x]
  | y :: ys => if key y ≤ key x then x :: y :: ys else y :: insertDescBy key x ys

/-- Stable sort, descending by `key`. -/
def sortDescBy {α β : Type} [LinearOrder β] (key : α → β) : List α → List α
  | [] => []
  | x :: xs => insertDescBy key x (sortDescBy key xs)

/-!
## Threshold filter and local backfill — `app.api_match` lines 849–901

```python
local_matches = sorted(local_matches, key=lambda x: -x["similarity"])
external_matches = sorted(external_matches, key=lambda x: -x["similarity"])
matches = local_matches + external_matches
...
filtered = [m for m in matches if m["similarity"] * 100 >= threshold_pct]
filtered_local_count = len([m for m in filtered if m["job"].get("source") == "local"])
...
if len(local_matches) > 0 and filtered_local_count == 0:
    local_above_30 = [m for m in local_matches if m["similarity"] * 100 >= 30.0]
    if local_above_30:
        filtered = local_above_30 + [m for m in filtered if m["job"].get("source") != "local"]
```
-/

/-- Provenance tag carried by each scored match. -/
inductive JobSource where
  | localJob
  | externalJob
deriving DecidableEq

/-- A scored match as stored by the pipeline: the provenance tag and the
stored `similarity` value (which the source sets to `pct / 100.0`). -/
structure MatchEntry where
  source : JobSource
  similarity : ℚ
deriving DecidableEq

/-- The sort + threshold filter + local-backfill stage of `api_match`. -/
def thresholdBackfill (local_matches external_matches : List MatchEntry)
    (threshold_pct : ℚ) : List MatchEntry :=
  let lms := sortDescBy (fun m => m.similarity) local_matches
  let ems := sortDescBy (fun m => m.similarity) external_matches
  let combined := lms ++ ems
  let filtered := combined.filter (fun m => decide (threshold_pct ≤ m.similarity * 100))
  let filtered_local_count :=
    (filtered.filter (fun m => decide (m.source = JobSource.localJob))).length
  if 0 < local_matches.length ∧ filtered_local_count = 0 then
    let local_above_30 := lms.filter (fun m => decide ((30:ℚ) ≤ m.similarity * 100))
    if local_above_30.isEmpty then filtered
    else local_above_30 ++ filtered.filter (fun m => decide (m.source ≠ JobSource.localJob))
  else filtered

/-!
## RAG candidate selection — `app.api_rag_search` lines 1141–1160

```python
min_similarity = float(os.getenv("RAG_MIN_SIMILARITY", "0.3"))
valid_indices = [i for i, sim in enumerate(sims) if sim >= min_similarity]
if not valid_indices:
    min_similarity = 0.2
    valid_indices = [i for i, sim in enumerate(sims) if sim >= min_similarity]
valid_sims = [(i, sims[i]) for i in valid_indices]
valid_sims.sort(key=lambda x: x[1], reverse=True)
top_indices = [i for i, _ in valid_sims[:top_k]]
```
-/

/-- The default of `os.getenv("RAG_MIN_SIMILARITY", "0.3")`. -/
def RAG_MIN_SIMILARITY_default : ℚ := 3/10

/-- The similarity-floor filter (with its single relaxation to `0.2`),
descending sort and top-`k` truncation of `api_rag_search`, returning the
selected `(index, similarity)` pairs in output order. -/
def ragSelect (sims : List ℚ) (min_similarity : ℚ) (top_k : ℕ) : List (ℕ × ℚ) :=
  let idx := sims.enum
  let valid_indices := idx.filter (fun p => decide (min_similarity ≤ p.2))
  let valid_indices :=
    if valid_indices.isEmpty then idx.filter (fun p => decide ((2:ℚ)/10 ≤ p.2))
    else valid_indices
  let valid_sims := sortDescBy (fun p => p.2) valid_indices
  valid_sims.take top_k

/-!
## Text generation — `classifier.chat_complete` lines 109–149

The wrapper tries Vertex AI (Gemini) when `USE_VERTEX` is set; on a Vertex
exception it returns a capitalized-keyword extraction from the prompt
(`re.findall(r'\b[A-Z][a-zA-Z]+\b', prompt)`, first ten, or the constant
`"general job search"`); only when Vertex is disabled, or returned an empty
response, does it consult OpenAI; and only when that also fails or is
unconfigured does it return the fixed sorry sentence.
-/

/-- Outcome of one Vertex `generate_content` call: an exception, or a
response whose `.text` is the given string (empty models a falsy response). -/
inductive VertexGenOutcome where
  | raises
  | returns (text : Str)

/-- Outcome of one OpenAI chat-completions call: client unconfigured
(`openai_client is None`), an exception, or returned content. -/
inductive OpenAIGenOutcome where
  | noClient
  | raises
  | returns (text : Str)

/-- Availability and per-call outcomes of the two text-generation backends. -/
structure GenBackends where
  useVertex : Bool
  vertex : VertexGenOutcome
  openai : OpenAIGenOutcome

/-- A regex word character `[A-Za-z0-9_]` (ASCII, which covers every prompt
considered here). -/
def isWordChar (c : Char) : Bool := c.isAlphanum || c = '_'

/-- Maximal runs of characters satisfying `p` (auxiliary accumulator form). -/
def charRunsAux (p : Char → Bool) : Str → Str → List Str
  | [], acc => if acc.isEmpty then [] else [acc.reverse]
  | c :: rest, acc =>
    if p c then charRunsAux p rest (c :: acc)
    else if acc.isEmpty then charRunsAux p rest []
    else acc.reverse :: charRunsAux p rest []

/-- Maximal runs of characters satisfying `p`. -/
def charRuns (p : Char → Bool) (cs : Str) : List Str := charRunsAux p cs []

/-- `re.findall(r'\b[A-Z][a-zA-Z]+\b', prompt)`: within each maximal word
run, the pattern (with its two word boundaries) matches exactly when the
whole run is alphabetic, starts with an uppercase letter, and has length at
least two. -/
def regexCapitalizedWords (prompt : Str) : List Str :=
  (charRuns isWordChar prompt).filter fun r =>
    match r with
    | [] => false
    | c :: rest => c.isUpper && !rest.isEmpty && rest.all Char.isAlpha

/-- The keyword fallback taken when the Vertex generation call raises:
`" ".join(keywords[:10]) or "general job search"`. -/
def vertexKeywordFallback (prompt : Str) : Str :=
  let joined := joinSep (str (" ")) ((regexCapitalizedWords prompt).take 10)
  if joined.isEmpty then str ("general job search") else joined

/-- The fixed final-fallback sentence of `chat_complete`. -/
def sorrySentence : Str := str ("Sorry, AI response could not be generated at the moment.")

/-- Model of `classifier.chat_complete`. -/
def chat_complete (g : GenBackends) (prompt : Str) : Str :=
  let afterVertex : Option Str :=
    if g.useVertex then
      match g.vertex with
      | .returns s => if s.isEmpty then none else some (pyStrip s)
      | .raises => some (vertexKeywordFallback prompt)
    else none
  match afterVertex with
  | some r => r
  | none =>
    match g.openai with
    | .returns s => pyStrip s
    | .raises => sorrySentence
    | .noClient => sorrySentence

/-!
## Embedding cache — `app.cached_get_embedding` lines 84–89

```python
@lru_cache(maxsize=1024)
def cached_get_embedding(text: str):
    return get_embedding(text)

def clear_embedding_cache():
    cached_get_embedding.cache_clear()
```

`functools.lru_cache` keeps at most `maxsize` entries in recency order: a hit
moves its key to most-recent; a miss computes, appends as most-recent and, at
capacity, evicts the least-recently-used entry.
-/

/-- The cache state: entries in recency order (least-recent first). -/
structure EmbCache (α : Type) where
  entries : List (Str × α)
  maxsize : ℕ

/-- Lookup of a key in the cache's entry list. -/
def cacheLookup {α : Type} : List (Str × α) → Str → Option α
  | [], _ => none
  | (k, v) :: rest, t => if k = t then some v else cacheLookup rest t

/-- One call through the `lru_cache`-wrapped `cached_get_embedding`: returns
the value, the new cache state, and the number of invocations of the wrapped
function (`get_embedding`). -/
def cached_get_embedding_call {α : Type} (c : EmbCache α) (f : Str → α) (t : Str) :
    α × EmbCache α × ℕ :=
  match cacheLookup c.entries t with
  | some v => (v, ⟨c.entries.filter (fun p => decide (p.1 ≠ t)) ++ [(t, v)], c.maxsize⟩, 0)
  | none =>
    let v := f t
    let es := c.entries ++ [(t, v)]
    let es' := if c.maxsize < es.length then es.drop (es.length - c.maxsize) else es
    (v, ⟨es', c.maxsize⟩, 1)

/-- `clear_embedding_cache` / `cache_clear()`: discard all entries. -/
def clear_embedding_cache {α : Type} (c : EmbCache α) : EmbCache α := ⟨[], c.maxsize⟩

/-- The `maxsize=1024` bound of the application's embedding cache. -/
def appEmbCacheMaxsize : ℕ := 1024

/-!
## External search query derivation — `app.api_match` lines 628–671 and
`app.api_rag_search` lines 1004–1057

Both endpoints derive a search query from the resume with `chat_complete`,
clean the raw output, and fall back when the cleaned query is shorter than 3
characters or the derivation raised.  The two endpoints differ: `api_match`
replaces a too-short query directly with `"software engineer"` and runs its
vocabulary scan only in the exception handler, while `api_rag_search` runs
its vocabulary scan for a too-short query and uses a reduced keyword fallback
in the exception handler.
-/

/-- The cleanup chain of `api_match`: strip, remove quote characters, strip,
drop a `query:` label, unwrap a markdown fence, keep the first 5
whitespace-delimited words and at most 50 characters. -/
def cleanupQueryMatch (raw : Str) : Str :=
  let q := pyStrip raw
  let q := pyStrip (pyRemoveChar '\x27' (pyRemoveChar '\x22' q))
  let q := if pyStartsWith (pyLower q) (str ("query:")) then pyStrip (q.drop 6) else q
  let q :=
    if pyStartsWith q (str ("```")) then
      pyStrip (joinSep (str ("\n")) (((pySplitChar '\n' q).drop 1).dropLast))
    else q
  (joinSep (str (" ")) ((pySplitWs q).take 5)).take 50

/-- The fixed role-title vocabulary of `api_match`'s exception fallback. -/
def common_titles_match : List Str :=
  [str ("engineer"), str ("developer"), str ("analyst"), str ("scientist"),
   str ("manager"), str ("designer"), str ("architect"), str ("programmer")]

/-- The deterministic scan fallback in `api_match`'s exception handler: first
matching role title (title-cased) plus up to two alphabetic words longer than
3 characters from the first 300 characters of the resume; the placeholder
query when nothing is found. -/
def matchScanFallback (resume_text : Str) : Str :=
  let resume_lower := pyLower resume_text
  let found_title := common_titles_match.find? (fun t => strHasSub resume_lower t)
  let words := pySplitWs (resume_text.take 300)
  let skills := (words.filter (fun w => decide (3 < w.length) && w.all Char.isAlpha)).take 3
  let query_parts :=
    (match found_title with
     | some t => [pyTitle t]
     | none => []) ++ skills.take 2
  if query_parts.isEmpty then str ("software engineer")
  else joinSep (str (" ")) query_parts

/-- Query derivation in `api_match` (lines 640–670): `some raw` models
`chat_complete` returning `raw`, `none` models the `try` body raising. -/
def derive_query_match (llm : Option Str) (resume_text : Str) : Str :=
  match llm with
  | some raw =>
    let query := cleanupQueryMatch raw
    if query.isEmpty || decide (query.length < 3) then str ("software engineer") else query
  | none => matchScanFallback resume_text

/-- The label prefixes removed by `api_rag_search`'s cleanup. -/
def rag_label_prefixes : List Str :=
  [str ("Query:"), str ("Search:"), str ("Jobs:"), str ("The query is:"), str ("Query is:")]

/-- Sequentially strip each label prefix (case-insensitively) as the source's
`for prefix in [...]` loop does. -/
def stripLabels : List Str → Str → Str
  | [], q => q
  | p :: ps, q =>
    stripLabels ps (if pyStartsWith (pyLower q) (pyLower p) then pyStrip (q.drop p.length) else q)

/-- The cleanup chain of `api_rag_search`: strip, remove quote characters,
strip, drop label prefixes, keep the first 5 words longer than 2 characters
and at most 50 characters. -/
def cleanupQueryRag (raw : Str) : Str :=
  let q := pyStrip raw
  let q := pyStrip (pyRemoveChar '\x27' (pyRemoveChar '\x22' q))
  let q := stripLabels rag_label_prefixes q
  (joinSep (str (" ")) (((pySplitWs q).filter (fun w => decide (2 < w.length))).take 5)).take 50

/-- The fixed role-title vocabulary of `api_rag_search`'s short-query scan. -/
def common_titles_rag : List Str :=
  [str ("engineer"), str ("developer"), str ("analyst"), str ("scientist"),
   str ("manager"), str ("designer"), str ("architect"), str ("consultant"),
   str ("specialist")]

/-- The fixed skill vocabulary of `api_rag_search`'s short-query scan. -/
def common_skills_rag : List Str :=
  [str ("python"), str ("java"), str ("react"), str ("javascript"), str ("sql"),
   str ("data"), str ("machine learning"), str ("ai"), str ("cloud"), str ("aws")]

/-- The scan run by `api_rag_search` when the cleaned query is too short:
title+skill, title alone, or the placeholder (a skill alone is ignored). -/
def ragScanFallback (resume_text : Str) : Str :=
  let resume_lower := pyLower resume_text
  let found_title := common_titles_rag.find? (fun t => strHasSub resume_lower t)
  let found_skill := common_skills_rag.find? (fun s => strHasSub resume_lower s)
  match found_title, found_skill with
  | some t, some s => pyTitle t ++ str (" ") ++ pyTitle s
  | some t, none => pyTitle t
  | none, _ => str ("software engineer")

/-- Query derivation in `api_rag_search` (lines 1006–1057): `some raw` models
`chat_complete` returning `raw`, `none` models the `try` body raising (whose
handler uses a reduced keyword fallback). -/
def derive_query_rag (llm : Option Str) (resume_text : Str) : Str :=
  match llm with
  | some raw =>
    let query := cleanupQueryRag raw
    if query.isEmpty || decide (query.length < 3) then ragScanFallback resume_text else query
  | none =>
    let rl := pyLower resume_text
    if strHasSub rl (str ("data")) && strHasSub rl (str ("scientist")) then
      str ("Data Scientist")
    else if strHasSub rl (str ("engineer")) || strHasSub rl (str ("developer")) then
      str ("Software Engineer")
    else str ("software engineer")

/-!
## JSON extraction in the LLM rerank step — `app.api_rag_search` lines
1191–1220

```python
try:
    llm_out = chat_complete(prompt)
    if "{" in llm_out and "}" in llm_out:
        start = llm_out.find("{"); end = llm_out.rfind("}") + 1
        json_str = llm_out[start:end]
        parsed = _json.loads(json_str)
        if isinstance(parsed, dict):
            if parsed.get("score") is not None:
                result_entry["llm_score"] = int(parsed.get("score"))
            result_entry["match_explanation"] = parsed.get("explanation", "")
    else:
        result_entry["match_explanation"] = llm_out
except Exception as e:
    result_entry["match_explanation"] = f"Analysis unavailable: {str(e)}"
```

The JSON grammar of `json.loads` is embedded below (values, objects, arrays,
strings with escapes, numbers with fraction/exponent, the three literals);
parse-error messages reproduce Python's wording without the line/column
suffix, which no statement below depends on.
-/

/-- A parsed JSON value (`json.loads` output). -/
inductive JVal where
  | jnull
  | jbool (b : Bool)
  | jnum (q : ℚ)
  | jstr (s : Str)
  | jarr (xs : List JVal)
  | jobj (fields : List (Str × JVal))

/-- JSON insignificant whitespace. -/
def jsonSkipWs (cs : Str) : Str :=
  cs.dropWhile (fun c => c = ' ' || c = '\t' || c = '\n' || c = '\r')

/-- Value of a hex digit, if it is one. -/
def hexDigitVal (c : Char) : Option ℕ :=
  if c.isDigit then some (c.toNat - 48)
  else if 'a' ≤ c && c ≤ 'f' then some (c.toNat - 87)
  else if 'A' ≤ c && c ≤ 'F' then some (c.toNat - 55)
  else none

/-- The single-character JSON string escapes. -/
def jsonEscapeChar (c : Char) : Option Char :=
  if c = '"' then some '"'
  else if c = '\\' then some '\\'
  else if c = '/' then some '/'
  else if c = 'b' then some (Char.ofNat 8)
  else if c = 'f' then some (Char.ofNat 12)
  else if c = 'n' then some '\n'
  else if c = 'r' then some '\x0d'
  else if c = 't' then some '\t'
  else none

/-- Parse the body of a JSON string (the opening quote already consumed),
returning the decoded string and the rest of the input. -/
def parseJStringAux : Str → Str → Except Str (Str × Str)
  | [], _ => .error (str ("Unterminated string starting at"))
  | '"' :: rest, acc => .ok (acc.reverse, rest)
  | '\\' :: 'u' :: h1 :: h2 :: h3 :: h4 :: rest, acc =>
    (match hexDigitVal h1, hexDigitVal h2, hexDigitVal h3, hexDigitVal h4 with
     | some a, some b, some c, some d =>
       parseJStringAux rest (Char.ofNat (((a * 16 + b) * 16 + c) * 16 + d) :: acc)
     | _, _, _, _ => .error (str ("Invalid \\uXXXX escape")))
  | ['\\'], _ => .error (str ("Unterminated string starting at"))
  | '\\' :: e :: rest, acc =>
    (match jsonEscapeChar e with
     | some c => parseJStringAux rest (c :: acc)
     | none => .error (str ("Invalid \\escape")))
  | c :: rest, acc => parseJStringAux rest (c :: acc)

/-- Natural value of a digit run. -/
def digitsVal (ds : Str) : ℕ := ds.foldl (fun n c => n * 10 + (c.toNat - 48)) 0

/-- Parse a JSON number (leading `-`, an integer part with the leading-zero
rule, optional fraction and exponent), returning its rational value and the
rest of the input. -/
def parseJNumber (cs : Str) : Except Str (ℚ × Str) :=
  let (neg, cs1) :=
    match cs with
    | '-' :: rest => (true, rest)
    | _ => (false, cs)
  let intDigits :=
    match cs1 with
    | '0' :: _ => ['0']
    | _ => cs1.takeWhile Char.isDigit
  if intDigits.isEmpty then .error (str ("Expecting value"))
  else
    let cs2 := cs1.drop intDigits.length
    let (fracDigits, cs3) :=
      match cs2 with
      | '.' :: rest =>
        (rest.takeWhile Char.isDigit, rest.drop (rest.takeWhile Char.isDigit).length)
      | _ => ([], cs2)
    if (match cs2 with | '.' :: _ => fracDigits.isEmpty | _ => false) then
      .error (str ("Expecting value"))
    else
      let hasExpMark := match cs3 with | 'e' :: _ => true | 'E' :: _ => true | _ => false
      let cs4 := if hasExpMark then cs3.drop 1 else cs3
      let (expNeg, cs5) :=
        match hasExpMark, cs4 with
        | true, '-' :: rest => (true, rest)
        | true, '+' :: rest => (false, rest)
        | _, _ => (false, cs4)
      let expDigits := if hasExpMark then cs5.takeWhile Char.isDigit else []
      if hasExpMark && expDigits.isEmpty then .error (str ("Expecting value"))
      else
        let cs6 := if hasExpMark then cs5.drop expDigits.length else cs3
        let mantNum : ℕ := digitsVal intDigits * 10 ^ fracDigits.length + digitsVal fracDigits
        let e : ℕ := digitsVal expDigits
        let numerator : ℤ :=
          (if neg then -(mantNum : ℤ) else (mantNum : ℤ)) * (if expNeg then 1 else 10 ^ e)
        let denominator : ℕ := 10 ^ fracDigits.length * (if expNeg then 10 ^ e else 1)
        .ok (mkRat numerator denominator, cs6)

mutual

/-- Parse one JSON value (fuel-indexed mutual recursion). -/
def parseJVal : ℕ → Str → Except Str (JVal × Str)
  | 0, _ => .error (str ("Expecting value"))
  | fuel + 1, cs =>
    match jsonSkipWs cs with
    | [] => .error (str ("Expecting value"))
    | '{' :: rest =>
      (match jsonSkipWs rest with
       | '}' :: rest2 => .ok (.jobj [], rest2)
       | cs2 => parseJMembers fuel cs2 [])
    | '[' :: rest =>
      (match jsonSkipWs rest with
       | ']' :: rest2 => .ok (.jarr [], rest2)
       | cs2 => parseJItems fuel cs2 [])
    | '"' :: rest =>
      (match parseJStringAux rest [] with
       | .ok (s, rest2) => .ok (.jstr s, rest2)
       | .error e => .error e)
    | 't' :: 'r' :: 'u' :: 'e' :: rest => .ok (.jbool true, rest)
    | 'f' :: 'a' :: 'l' :: 's' :: 'e' :: rest => .ok (.jbool false, rest)
    | 'n' :: 'u' :: 'l' :: 'l' :: rest => .ok (.jnull, rest)
    | c :: rest =>
      if c = '-' || c.isDigit then
        match parseJNumber (c :: rest) with
        | .ok (q, rest2) => .ok (.jnum q, rest2)
        | .error e => .error e
      else .error (str ("Expecting value"))

/-- Parse the members of a JSON object after its opening brace (first
non-whitespace character already reached, object known non-empty). -/
def parseJMembers : ℕ → Str → List (Str × JVal) → Except Str (JVal × Str)
  | 0, _, _ => .error (str ("Expecting property name enclosed in double quotes"))
  | fuel + 1, cs, acc =>
    match cs with
    | '"' :: rest =>
      (match parseJStringAux rest [] with
       | .error e => .error e
       | .ok (key, rest2) =>
         match jsonSkipWs rest2 with
         | ':' :: rest3 =>
           (match parseJVal fuel rest3 with
            | .error e => .error e
            | .ok (v, rest4) =>
              match jsonSkipWs rest4 with
              | ',' :: rest5 => parseJMembers fuel (jsonSkipWs rest5) ((key, v) :: acc)
              | '}' :: rest5 => .ok (.jobj ((key, v) :: acc).reverse, rest5)
              | _ => .error (str ("Expecting , delimiter")))
         | _ => .error (str ("Expecting : delimiter")))
    | _ => .error (str ("Expecting property name enclosed in double quotes"))

/-- Parse the items of a JSON array after its opening bracket (array known
non-empty). -/
def parseJItems : ℕ → Str → List JVal → Except Str (JVal × Str)
  | 0, _, _ => .error (str ("Expecting value"))
  | fuel + 1, cs, acc =>
    match parseJVal fuel cs with
    | .error e => .error e
    | .ok (v, rest) =>
      match jsonSkipWs rest with
      | ',' :: rest2 => parseJItems fuel rest2 (v :: acc)
      | ']' :: rest2 => .ok (.jarr (v :: acc).reverse, rest2)
      | _ => .error (str ("Expecting , delimiter"))

end

/-- Model of `json.loads`: parse one value and require only whitespace to
remain. -/
def jsonLoads (cs : Str) : Except Str JVal :=
  match parseJVal (2 * cs.length + 8) cs with
  | .error e => .error e
  | .ok (v, rest) => if (jsonSkipWs rest).isEmpty then .ok v else .error (str ("Extra data"))

/-- Python `dict.get`: later duplicate keys overwrite earlier ones. -/
def dictGet : List (Str × JVal) → Str → Option JVal
  | [], _ => none
  | (k, v) :: rest, key =>
    match dictGet rest key with
    | some v2 => some v2
    | none => if k = key then some v else none

/-- Python `int(x)` applied to a `json.loads` value: truncation toward zero
for numbers, `1`/`0` for booleans, a parsed optionally signed digit string;
`none` models `int` raising. -/
def pyIntOfJVal : JVal → Option ℤ
  | .jnum q => some (if q < 0 then ⌈q⌉ else ⌊q⌋)
  | .jbool b => some (if b then 1 else 0)
  | .jstr s =>
    (let t := pyStrip s
     let (neg, ds) :=
       match t with
       | '-' :: rest => (true, rest)
       | '+' :: rest => (false, rest)
       | _ => (false, t)
     if ds.isEmpty || !ds.all Char.isDigit then none
     else some (if neg then -(digitsVal ds : ℤ) else (digitsVal ds : ℤ)))
  | _ => none

/-- One per-candidate rerank outcome: the optional numeric LLM score and the
value stored in `match_explanation` (a `JVal`, since `parsed.get` may store
any parsed value; plain text is `JVal.jstr`). -/
structure RerankEntry where
  llm_score : Option ℤ
  match_explanation : JVal

/-- The substring `llm_out[llm_out.find("{") : llm_out.rfind("}") + 1]` (an
empty string when the last `}` precedes the first `{`, as Python slicing
gives). -/
def extractBraceSpan (llm_out : Str) : Str :=
  let start := llm_out.findIdx (fun c => c = '{')
  let stop := llm_out.length - 1 - llm_out.reverse.findIdx (fun c => c = '}')
  (llm_out.drop start).take (stop + 1 - start)

/-- Model of the per-candidate rerank parse step of `api_rag_search` applied
to the text `llm_out` returned by `chat_complete` (the message text after
`Analysis unavailable: ` reproduces the parser's abbreviated message). -/
def processRerank (llm_out : Str) : RerankEntry :=
  if llm_out.contains '{' && llm_out.contains '}' then
    let json_str := extractBraceSpan llm_out
    match jsonLoads json_str with
    | .error e => ⟨none, .jstr (str ("Analysis unavailable: ") ++ e)⟩
    | .ok v =>
      match v with
      | .jobj fields =>
        (match dictGet fields (str ("score")) with
         | none => ⟨none, (dictGet fields (str ("explanation"))).getD (.jstr [])⟩
         | some .jnull => ⟨none, (dictGet fields (str ("explanation"))).getD (.jstr [])⟩
         | some sv =>
           match pyIntOfJVal sv with
           | some n => ⟨some n, (dictGet fields (str ("explanation"))).getD (.jstr [])⟩
           | none => ⟨none, .jstr (str ("Analysis unavailable: invalid literal for int"))⟩)
      | _ => ⟨none, .jstr []⟩
  else ⟨none, .jstr llm_out⟩

/-- The rerank loop over the top-K candidates: one entry per candidate,
appended unconditionally (`results.append(result_entry)` runs on every
path). -/
def processRerankBatch (outs : List Str) : List RerankEntry := outs.map processRerank

/-!
## The match endpoint — `app.api_match` lines 596–943

The slice modelled here is the request path relevant to embedding
availability: direct `resume_text` input, local catalog jobs, and no external
jobs (`SERPAPI_KEY` unset skips the external fetch, and any external failure
degrades to an empty list — either way `external_jobs = []`).  The embedding
cache is value-transparent (`cached_get_embedding(t)` returns exactly
`get_embedding(t)`), so scoring calls `get_embedding` directly.  Similarity
values are real-valued here because the similarity computation involves
square roots.
-/

/-- A scored match produced by the scoring phases. -/
structure ScoredMatch where
  title : Str
  source : JobSource
  similarity : ℝ

/-- The diagnostic message attached to an empty filtered result (each
constructor stands for one of the message f-strings of the source; the
`noneMeetThreshold` payload is the displayed top similarity percentage). -/
inductive MatchMessage where
  | earlyNoJobs
  | noneMeetThreshold (top_sim : ℝ)
  | noJobsFound
  | allFilteredOut
  | noneAbove

/-- The response of the match endpoint: a structured error (`jsonify` with
`ok: False` and an HTTP status) or a scored result list with an optional
diagnostic message. -/
inductive MatchResp where
  | err (status : ℕ) (msg : Str)
  | ok (results : List ScoredMatch) (message : Option MatchMessage)

/-- Phase 1 of `api_match`: score each local job (composite text, emptiness
guard, embedding, cosine similarity, percentage rounding, the two lenient
filters). -/
noncomputable def scoreLocalJobs (b : EmbedBackends) (preferred_location job_type : Str)
    (resume_emb : List ℚ) (jobs : List LocalJob) : List ScoredMatch :=
  jobs.filterMap fun j =>
    let fjd := full_job_desc j
    if pyStrip fjd = [] then none
    else
      let job_emb := (get_embedding b fjd).1
      let sim := cosine_similarities resume_emb job_emb
      let pct := roundTo2 (sim * 100)
      if local_job_filtered_out preferred_location job_type j then none
      else some ⟨j.title, .localJob, pct / 100⟩

/-- The sort + threshold + backfill stage of `api_match` over the
real-valued scored matches (same source lines as `thresholdBackfill`). -/
noncomputable def thresholdBackfillR (local_matches external_matches : List ScoredMatch)
    (threshold_pct : ℝ) : List ScoredMatch :=
  let lms := sortDescBy (fun m => m.similarity) local_matches
  let ems := sortDescBy (fun m => m.similarity) external_matches
  let combined := lms ++ ems
  let filtered := combined.filter (fun m => decide (threshold_pct ≤ m.similarity * 100))
  let filtered_local_count :=
    (filtered.filter (fun m => decide (m.source = JobSource.localJob))).length
  if 0 < local_matches.length ∧ filtered_local_count = 0 then
    let local_above_30 := lms.filter (fun m => decide ((30:ℝ) ≤ m.similarity * 100))
    if local_above_30.isEmpty then filtered
    else local_above_30 ++ filtered.filter (fun m => decide (m.source ≠ JobSource.localJob))
  else filtered

/-- Model of the `api_match` request path described above. -/
noncomputable def api_match_model (b : EmbedBackends) (preferred_location job_type : Str)
    (resume_text_input : Str) (local_jobs : List LocalJob) (threshold_env : ℚ) : MatchResp :=
  let resume_text := pyStrip resume_text_input
  if resume_text = [] then .err 400 (str ("resume_text or user_id required"))
  else if local_jobs.length = 0 then .ok [] (some .earlyNoJobs)
  else
    let resume_emb := (get_embedding b resume_text).1
    let local_matches := scoreLocalJobs b preferred_location job_type resume_emb local_jobs
    let external_matches : List ScoredMatch := []
    let threshold_pct : ℝ := ((effectiveThreshold threshold_env : ℚ) : ℝ)
    let lms := sortDescBy (fun m => m.similarity) local_matches
    let ems := sortDescBy (fun m => m.similarity) external_matches
    let combined := lms ++ ems
    let filtered := thresholdBackfillR local_matches external_matches threshold_pct
    let message : Option MatchMessage :=
      match filtered with
      | _ :: _ => none
      | [] =>
        match combined with
        | top :: _ => some (.noneMeetThreshold (top.similarity * 100))
        | [] =>
          if local_matches.length = 0 ∧ external_matches.length = 0 then
            if local_jobs.length = 0 then some .noJobsFound
            else some .allFilteredOut
          else some .noneAbove
    .ok filtered message

/-!
## Helper lemmas
-/

theorem mem_insertDescBy {α β : Type} [LinearOrder β] (key : α → β) (x a : α) :
    ∀ l : List α, a ∈ insertDescBy key x l ↔ a = x ∨ a ∈ l := by
  intro l
  induction l with
  | nil => simp [insertDescBy]
  | cons y ys ih =>
    by_cases h : key y ≤ key x
    · simp [insertDescBy, h]
    · simp [insertDescBy, h, ih]
      tauto

theorem mem_sortDescBy {α β : Type} [LinearOrder β] (key : α → β) (a : α) :
    ∀ l : List α, a ∈ sortDescBy key l ↔ a ∈ l := by
  intro l
  induction l with
  | nil => simp [sortDescBy]
  | cons y ys ih => simp [sortDescBy, mem_insertDescBy, ih]

theorem length_insertDescBy {α β : Type} [LinearOrder β] (key : α → β) (x : α) :
    ∀ l : List α, (insertDescBy key x l).length = l.length + 1 := by
  intro l
  induction l with
  | nil => simp [insertDescBy]
  | cons y ys ih =>
    by_cases h : key y ≤ key x
    · simp [insertDescBy, h]
    · simp [insertDescBy, h, ih]

theorem length_sortDescBy {α β : Type} [LinearOrder β] (key : α → β) :
    ∀ l : List α, (sortDescBy key l).length = l.length := by
  intro l
  induction l with
  | nil => rfl
  | cons y ys ih => simp [sortDescBy, length_insertDescBy, ih]

theorem sortDescBy_nil {α β : Type} [LinearOrder β] (key : α → β) :
    sortDescBy key ([] : List α) = [] := rfl

theorem sortDescBy_singleton {α β : Type} [LinearOrder β] (key : α → β) (x : α) :
    sortDescBy key [x] = [x] := rfl

theorem filter_eq_nil_of_forall {α : Type} (p : α → Bool) (l : List α)
    (h : ∀ a ∈ l, p a = false) : l.filter p = [] := by
  simp only [List.filter_eq_nil_iff]
  intro a ha
  simp [h a ha]

theorem filter_eq_self_of_forall {α : Type} (p : α → Bool) (l : List α)
    (h : ∀ a ∈ l, p a = true) : l.filter p = l := by
  simpa using h

/-!
## Claim C3 — threshold floor
-/

/-- Claim C3: the effective similarity threshold is never below 40 percent; a
configured value of `10` (or `0.10`) yields exactly `40.0`; values below `1`
are multiplied by `100` before clamping; the default configuration value `50`
yields a `50` percent threshold. -/
theorem C3_threshold_floor :
    (∀ t : ℚ, 40 ≤ effectiveThreshold t) ∧
    effectiveThreshold 10 = 40 ∧
    effectiveThreshold (1/10) = 40 ∧
    (∀ t : ℚ, t < 1 → effectiveThreshold t = max (t * 100) 40) ∧
    effectiveThreshold MATCH_THRESHOLD_default = 50 := by
  refine ⟨fun t => le_max_right _ _, ?_, ?_, fun t ht => by simp [effectiveThreshold, ht], ?_⟩
  · norm_num [effectiveThreshold]
  · norm_num [effectiveThreshold]
  · norm_num [effectiveThreshold, MATCH_THRESHOLD_default]

/-- Witness for C3 at the concrete fraction-form input `1/2`. -/
theorem C3_threshold_floor_witness :
    ((1:ℚ)/2 < 1) ∧ effectiveThreshold ((1:ℚ)/2) = max ((1:ℚ)/2 * 100) 40 :=
  ⟨by norm_num, C3_threshold_floor.2.2.2.1 ((1:ℚ)/2) (by norm_num)⟩

/-!
## Claim C4 — the job-type filter value `"any"`
-/

/-- Claim C4 counterexample: with the filter value `"any"`, an external job
whose lowercased title+description does not contain the substring `any` is
excluded, while the analogous local job is kept — refuting the claim that
the `"any"` filter excludes no job and that external jobs apply the same
job-type rule as local jobs. -/
theorem C4_counterexample :
    external_job_filtered_out [] (str ("any"))
      ⟨str ("Cook"), str ("Prepare meals"), []⟩ = true ∧
    local_job_filtered_out [] (str ("any"))
      ⟨str ("Cook"), str ("Prepare meals"), [], [], [], none⟩ = false := by
  constructor
  · decide
  · decide

/-- Claim C4 as amended: the literal value `"any"` disables the job-type
filter for local jobs (the filter behaves as if no job-type filter were
given), but the external branch has no such exemption: with `"any"` an
external job is excluded exactly when the location filter excludes it or the
substring `any` does not occur in its lowercased title+description. -/
theorem C4_amended :
    (∀ pl jt loc td, jt = str ("any") →
      local_filtered_out pl jt loc td = local_filtered_out pl [] loc td) ∧
    (∀ pl jt loc td, jt = str ("any") →
      external_filtered_out pl jt loc td =
        (external_filtered_out pl [] loc td || !strHasSub td (str ("any")))) ∧
    (∀ pl j, local_job_filtered_out pl (str ("any")) j = local_job_filtered_out pl [] j) := by
  have hne : ((str ("any")).isEmpty) = false := rfl
  refine ⟨?_, ?_, ?_⟩
  · intro pl jt loc td hjt
    subst hjt
    simp [local_filtered_out, hne]
  · intro pl jt loc td hjt
    subst hjt
    simp [external_filtered_out, hne, Bool.or_assoc]
  · intro pl j
    simp [local_job_filtered_out, local_filtered_out, hne]

/-- Witness for C4 at concrete filter strings and job texts. -/
theorem C4_amended_witness :
    (str ("any") = str ("any")) ∧
    local_filtered_out (str ("boston")) (str ("any")) (str ("boston ma")) (str ("cook")) =
      local_filtered_out (str ("boston")) [] (str ("boston ma")) (str ("cook")) :=
  ⟨rfl, C4_amended.1 (str ("boston")) (str ("any")) (str ("boston ma")) (str ("cook")) rfl⟩

/-!
## Claim C5 — empty-text short-circuit of the embedding
-/

/-- Claim C5 counterexample: with Vertex disabled and OpenAI the active
backend (declared dimension 1536), whitespace-only text still yields the
768-dimensional zero vector — the dimension does not equal the active
backend's declared dimension. -/
theorem C5_counterexample :
    specActiveEmbedderDim ⟨false, none, some (List.replicate 1536 1)⟩ = 1536 ∧
    (get_embedding ⟨false, none, some (List.replicate 1536 1)⟩ (str (" "))).1.length = 768 ∧
    (768 : ℕ) ≠ 1536 := by
  refine ⟨rfl, ?_, by decide⟩
  rw [get_embedding, if_pos (by decide)]
  simp

/-- Claim C5 as amended: on empty or whitespace-only text, `get_embedding`
returns the fixed 768-dimensional zero vector without invoking any provider,
for every backend configuration; this dimension matches the active backend's
declared dimension exactly when Vertex is the active backend. -/
theorem C5_amended : ∀ (b : EmbedBackends) (t : Str), pyStrip t = [] →
    get_embedding b t = (List.replicate 768 0, 0) ∧
    ((b.useVertex && b.vertexResult.isSome) = true →
      (get_embedding b t).1.length = specActiveEmbedderDim b) := by
  intro b t h
  have h1 : get_embedding b t = (List.replicate 768 0, 0) := by
    rw [get_embedding, if_pos h]
  refine ⟨h1, fun hv => ?_⟩
  rw [h1]
  simp [specActiveEmbedderDim, hv]

/-- Witness for C5 at whitespace-only input and a Vertex-active backend. -/
theorem C5_amended_witness :
    pyStrip (str ("   ")) = [] ∧
    (get_embedding ⟨true, some [1], none⟩ (str ("   ")) = (List.replicate 768 0, 0) ∧
      ((true && (some [(1:ℚ)]).isSome) = true →
        (get_embedding ⟨true, some [1], none⟩ (str ("   "))).1.length =
          specActiveEmbedderDim ⟨true, some [1], none⟩)) :=
  ⟨by decide, C5_amended ⟨true, some [1], none⟩ (str ("   ")) (by decide)⟩

/-!
## Claim C10 — totality and fallback of `chat_complete`
-/

/-- Claim C10 counterexample: with Vertex enabled and raising and OpenAI also
failing — every backend failing — `chat_complete` returns the keyword
fallback `"general job search"`, not the fixed sorry sentence the claim
requires. -/
theorem C10_counterexample :
    chat_complete ⟨true, .raises, .raises⟩ (str ("hello world")) = str ("general job search") ∧
    str ("general job search") ≠ sorrySentence := by
  exact ⟨by decide, by decide⟩

/-- Claim C10 as amended: `chat_complete` returns a string on every path, but
the fixed sorry sentence is returned only when Vertex is disabled (or yielded
an empty response) and OpenAI fails or is unconfigured; when Vertex is
enabled and its call raises, the result is the capitalized-keyword fallback
from the prompt and OpenAI is never consulted. -/
theorem C10_amended :
    (∀ (g : GenBackends) (p : Str), g.useVertex = true → g.vertex = VertexGenOutcome.raises →
      chat_complete g p = vertexKeywordFallback p) ∧
    (∀ (g : GenBackends) (p : Str),
      (g.useVertex = false ∨ g.vertex = VertexGenOutcome.returns []) →
      (g.openai = OpenAIGenOutcome.raises ∨ g.openai = OpenAIGenOutcome.noClient) →
      chat_complete g p = sorrySentence) ∧
    (∀ (g : GenBackends) (p s : Str),
      (g.useVertex = false ∨ g.vertex = VertexGenOutcome.returns []) →
      g.openai = OpenAIGenOutcome.returns s →
      chat_complete g p = pyStrip s) ∧
    (∀ (g : GenBackends) (p s : Str), g.useVertex = true →
      g.vertex = VertexGenOutcome.returns s → s ≠ [] →
      chat_complete g p = pyStrip s) := by
  refine ⟨?_, ?_, ?_, ?_⟩
  · intro g p h1 h2
    simp [chat_complete, h1, h2]
  · intro g p h1 h2
    rcases h1 with h1 | h1 <;> rcases h2 with h2 | h2 <;>
      simp [chat_complete, h1, h2, List.isEmpty]
  · intro g p s h1 h2
    rcases h1 with h1 | h1 <;> simp [chat_complete, h1, h2, List.isEmpty]
  · intro g p s h1 h2 h3
    simp [chat_complete, h1, h2, List.isEmpty_eq_true, h3]

/-- Witness for C10: the Vertex-raises branch at a concrete prompt. -/
theorem C10_amended_witness :
    ((⟨true, .raises, .noClient⟩ : GenBackends).useVertex = true) ∧
    ((⟨true, .raises, .noClient⟩ : GenBackends).vertex = VertexGenOutcome.raises) ∧
    chat_complete ⟨true, .raises, .noClient⟩ (str ("Hire Python Devs")) =
      vertexKeywordFallback (str ("Hire Python Devs")) :=
  ⟨rfl, rfl, C10_amended.1 ⟨true, .raises, .noClient⟩ (str ("Hire Python Devs")) rfl rfl⟩

/-!
## Claim C9 — embedding cache idempotence, bound, LRU eviction, clear
-/

theorem cacheLookup_none_append {α : Type} (t : Str) (v : α) :
    ∀ l : List (Str × α), cacheLookup l t = none → cacheLookup (l ++ [(t, v)]) t = some v := by
  intro l
  induction l with
  | nil => intro _; simp [cacheLookup]
  | cons kv rest ih =>
    intro h
    obtain ⟨k, w⟩ := kv
    by_cases hk : k = t
    · simp [cacheLookup, hk] at h
    · have h2 : cacheLookup rest t = none := by simpa [cacheLookup, hk] using h
      simpa [cacheLookup, hk] using ih h2

theorem cacheLookup_none_drop {α : Type} (t : Str) :
    ∀ (l : List (Str × α)) (n : ℕ), cacheLookup l t = none → cacheLookup (l.drop n) t = none := by
  intro l
  induction l with
  | nil => intro n _; simp [cacheLookup, List.drop_nil]
  | cons kv rest ih =>
    intro n h
    obtain ⟨k, w⟩ := kv
    by_cases hk : k = t
    · simp [cacheLookup, hk] at h
    · have h2 : cacheLookup rest t = none := by simpa [cacheLookup, hk] using h
      cases n with
      | zero => simpa [cacheLookup, hk] using h2
      | succ m => exact ih m h2

theorem cacheLookup_some_length {α : Type} (t : Str) (v : α) :
    ∀ l : List (Str × α), cacheLookup l t = some v →
      (l.filter (fun p => decide (p.1 ≠ t))).length + 1 ≤ l.length := by
  intro l
  induction l with
  | nil => intro h; simp [cacheLookup] at h
  | cons kv rest ih =>
    intro h
    obtain ⟨k, w⟩ := kv
    by_cases hk : k = t
    · have hlen := List.length_filter_le (fun p => decide (p.1 ≠ t)) rest
      have hhead : (decide ((k, w).1 ≠ t)) = false := by simp [hk]
      rw [List.filter_cons, hhead]
      simp only [Bool.false_eq_true, if_false, List.length_cons]
      omega
    · have h2 : cacheLookup rest t = some v := by simpa [cacheLookup, hk] using h
      have hlen := ih h2
      have hhead : (decide ((k, w).1 ≠ t)) = true := by simp [hk]
      rw [List.filter_cons, hhead]
      simp only [if_true, List.length_cons]
      omega

/-- Claim C9: calling the cache twice on (non-empty) `t` (absent from the
cache) returns identical vectors with exactly one invocation of the wrapped
embedder; the entry count never exceeds `maxsize`; at capacity a miss evicts
exactly the least-recently-used (front) entry; `clear` empties the cache; and
the application cache's bound is 1024. -/
theorem C9_cache_lru :
    (∀ (α : Type) (f : Str → α) (t : Str) (c : EmbCache α),
      pyStrip t ≠ [] → cacheLookup c.entries t = none → 0 < c.maxsize →
      (cached_get_embedding_call c f t).1 =
        (cached_get_embedding_call (cached_get_embedding_call c f t).2.1 f t).1 ∧
      (cached_get_embedding_call c f t).2.2 +
        (cached_get_embedding_call (cached_get_embedding_call c f t).2.1 f t).2.2 = 1) ∧
    (∀ (α : Type) (f : Str → α) (t : Str) (c : EmbCache α),
      c.entries.length ≤ c.maxsize →
      ((cached_get_embedding_call c f t).2.1).entries.length ≤ c.maxsize) ∧
    (∀ (α : Type) (f : Str → α) (t : Str) (c : EmbCache α),
      cacheLookup c.entries t = none → c.entries.length = c.maxsize → 0 < c.maxsize →
      ((cached_get_embedding_call c f t).2.1).entries = c.entries.drop 1 ++ [(t, f t)]) ∧
    (∀ (α : Type) (c : EmbCache α), (clear_embedding_cache c).entries = []) ∧
    appEmbCacheMaxsize = 1024 := by
  refine ⟨?_, ?_, ?_, fun α c => rfl, rfl⟩
  · intro α f t c _ hmiss hpos
    have hstep : cached_get_embedding_call c f t =
        (f t, ⟨if c.maxsize < (c.entries ++ [(t, f t)]).length then
                 (c.entries ++ [(t, f t)]).drop ((c.entries ++ [(t, f t)]).length - c.maxsize)
               else c.entries ++ [(t, f t)], c.maxsize⟩, 1) := by
      simp only [cached_get_embedding_call, hmiss]
    have hlook2 : cacheLookup
        (if c.maxsize < (c.entries ++ [(t, f t)]).length then
          (c.entries ++ [(t, f t)]).drop ((c.entries ++ [(t, f t)]).length - c.maxsize)
        else c.entries ++ [(t, f t)]) t = some (f t) := by
      by_cases hover : c.maxsize < (c.entries ++ [(t, f t)]).length
      · rw [if_pos hover]
        have hlen : (c.entries ++ [(t, f t)]).length - c.maxsize ≤ c.entries.length := by
          simp only [List.length_append, List.length_cons, List.length_nil]
          omega
        rw [List.drop_append_of_le_length hlen]
        exact cacheLookup_none_append t (f t) _ (cacheLookup_none_drop t _ _ hmiss)
      · rw [if_neg hover]
        exact cacheLookup_none_append t (f t) _ hmiss
    rw [hstep]
    constructor
    · show f t = (cached_get_embedding_call _ f t).1
      simp only [cached_get_embedding_call, hlook2]
    · show 1 + (cached_get_embedding_call _ f t).2.2 = 1
      simp only [cached_get_embedding_call, hlook2]
  · intro α f t c hbound
    cases hl : cacheLookup c.entries t with
    | some v =>
      have hlen := cacheLookup_some_length t v c.entries hl
      simp only [cached_get_embedding_call, hl]
      simp only [List.length_append, List.length_cons, List.length_nil]
      omega
    | none =>
      simp only [cached_get_embedding_call, hl]
      by_cases hover : c.maxsize < (c.entries ++ [(t, f t)]).length
      · rw [if_pos hover]
        simp only [List.length_drop, List.length_append, List.length_cons, List.length_nil]
        omega
      · rw [if_neg hover]
        simp only [List.length_append, List.length_cons, List.length_nil] at hover ⊢
        omega
  · intro α f t c hmiss hfull hpos
    simp only [cached_get_embedding_call, hmiss]
    have hover : c.maxsize < (c.entries ++ [(t, f t)]).length := by
      simp only [List.length_append, List.length_cons, List.length_nil]
      omega
    rw [if_pos hover]
    have h1 : (c.entries ++ [(t, f t)]).length - c.maxsize = 1 := by
      simp only [List.length_append, List.length_cons, List.length_nil]
      omega
    rw [h1, List.drop_append_of_le_length (by omega)]

/-- Witness for C9: the double-call conjunct on an initially empty cache of
bound 1024. -/
theorem C9_cache_lru_witness :
    (pyStrip (str ("python resume")) ≠ []) ∧
    (cacheLookup (⟨[], 1024⟩ : EmbCache ℕ).entries (str ("python resume")) = none) ∧
    (0 < (⟨[], 1024⟩ : EmbCache ℕ).maxsize) ∧
    ((cached_get_embedding_call (⟨[], 1024⟩ : EmbCache ℕ) (fun _ => 5) (str ("python resume"))).1 =
      (cached_get_embedding_call
        (cached_get_embedding_call (⟨[], 1024⟩ : EmbCache ℕ) (fun _ => 5)
          (str ("python resume"))).2.1 (fun _ => 5) (str ("python resume"))).1 ∧
      (cached_get_embedding_call (⟨[], 1024⟩ : EmbCache ℕ) (fun _ => 5) (str ("python resume"))).2.2 +
        (cached_get_embedding_call
          (cached_get_embedding_call (⟨[], 1024⟩ : EmbCache ℕ) (fun _ => 5)
            (str ("python resume"))).2.1 (fun _ => 5) (str ("python resume"))).2.2 = 1) :=
  ⟨by decide, rfl, by decide,
    C9_cache_lru.1 ℕ (fun _ => 5) (str ("python resume")) ⟨[], 1024⟩ (by decide) rfl (by decide)⟩

/-!
## Claim C7 — lenient parse-or-fallback in the LLM rerank step
-/

/-- Claim C7 counterexample: a response containing braces that is not valid
JSON — which cannot be parsed as the expected structured object — produces an
`Analysis unavailable: …` explanation, not the raw response text the claim
requires; the numeric score is indeed absent. -/
theorem C7_counterexample :
    (processRerank (str ("\x7bnot json\x7d"))).llm_score = none ∧
    (processRerank (str ("\x7bnot json\x7d"))).match_explanation ≠
      JVal.jstr (str ("\x7bnot json\x7d")) ∧
    (processRerank (str ("\x7bnot json\x7d"))).match_explanation =
      JVal.jstr (str ("Analysis unavailable: Expecting property name enclosed in double quotes")) := by
  have h : processRerank (str ("\x7bnot json\x7d")) =
      ⟨none, .jstr (str ("Analysis unavailable: Expecting property name enclosed in double quotes"))⟩ :=
    rfl
  refine ⟨by rw [h], ?_, by rw [h]⟩
  rw [h]
  intro hc
  simp only [JVal.jstr.injEq] at hc
  exact absurd hc (by decide)

/-- Claim C7 as amended: no per-candidate outcome removes the candidate or
aborts the batch (one entry per response, always), and no parse failure
yields a numeric score; but the raw response text becomes the explanation
only when the response contains no brace pair — when a brace span exists and
fails to parse, the explanation is `Analysis unavailable: <error>` instead. -/
theorem C7_amended :
    (∀ llm_out : Str, (llm_out.contains '{' && llm_out.contains '}') = false →
      processRerank llm_out = ⟨none, .jstr llm_out⟩) ∧
    (∀ (llm_out e : Str), (llm_out.contains '{' && llm_out.contains '}') = true →
      jsonLoads (extractBraceSpan llm_out) = .error e →
      processRerank llm_out = ⟨none, .jstr (str ("Analysis unavailable: ") ++ e)⟩) ∧
    (∀ outs : List Str, (processRerankBatch outs).length = outs.length) := by
  refine ⟨?_, ?_, fun outs => by simp [processRerankBatch]⟩
  · intro llm_out h
    simp only [processRerank]
    rw [if_neg (by intro hc; rw [h] at hc; exact Bool.false_ne_true hc)]
  · intro llm_out e h hload
    simp only [processRerank]
    rw [if_pos h, hload]

/-- Witness for C7: the no-brace conjunct at a concrete response text. -/
theorem C7_amended_witness :
    ((str ("no json here")).contains '{' && (str ("no json here")).contains '}') = false ∧
    processRerank (str ("no json here")) = ⟨none, .jstr (str ("no json here"))⟩ :=
  ⟨by decide, C7_amended.1 (str ("no json here")) (by decide)⟩

/-!
## Claim C8 — external query derivation fallback
-/

/-- Claim C8 counterexample: in `api_match`, a derivation that returns the
too-short query `ab` falls back to the placeholder `software engineer`
directly, although the vocabulary term `developer` occurs in the resume and
the vocabulary scan would have produced a different query — refuting the
claim that a short query triggers the vocabulary scan with the placeholder
used only when no vocabulary term occurs. -/
theorem C8_counterexample :
    derive_query_match (some (str ("ab"))) (str ("senior developer with java experience")) =
      str ("software engineer") ∧
    strHasSub (pyLower (str ("senior developer with java experience"))) (str ("developer")) = true ∧
    matchScanFallback (str ("senior developer with java experience")) ≠ str ("software engineer") :=
  ⟨by decide, by decide, by decide⟩

/-- Heads of title-cased vocabulary entries are uppercase, so no scan result
built from a found title can equal the all-lowercase placeholder. -/
theorem append_ne_of_head_ne {a b : Char} (l₁ l₂ l₃ : List Char) (h : a ≠ b) :
    (a :: l₁) ++ l₂ ≠ b :: l₃ := by
  simp [h]

theorem pyTitle_rag_vocab_ne : ∀ t0 ∈ common_titles_rag,
    (∀ s : Str, pyTitle t0 ++ str (" ") ++ pyTitle s ≠ str ("software engineer")) ∧
    pyTitle t0 ≠ str ("software engineer") := by
  intro t0 ht0
  fin_cases ht0 <;>
    exact ⟨fun s => append_ne_of_head_ne _ _ _ (by decide), by decide⟩

/-- Claim C8 as amended: on an exception, `api_match` uses its deterministic
vocabulary scan; but on a too-short derived query `api_match` uses the
placeholder `software engineer` directly, without any scan.  `api_rag_search`
is the endpoint that runs its title+skill scan on a too-short query, and its
scan yields the placeholder only when no role-title vocabulary term occurs in
the resume (a skill term alone is ignored). -/
theorem C8_amended :
    (∀ raw resume : Str,
      ((cleanupQueryMatch raw).isEmpty || decide ((cleanupQueryMatch raw).length < 3)) = true →
      derive_query_match (some raw) resume = str ("software engineer")) ∧
    (∀ resume : Str, derive_query_match none resume = matchScanFallback resume) ∧
    (∀ raw resume : Str,
      ((cleanupQueryRag raw).isEmpty || decide ((cleanupQueryRag raw).length < 3)) = true →
      derive_query_rag (some raw) resume = ragScanFallback resume) ∧
    (∀ resume : Str, (∃ t ∈ common_titles_rag, strHasSub (pyLower resume) t = true) →
      ragScanFallback resume ≠ str ("software engineer")) := by
  refine ⟨?_, fun resume => rfl, ?_, ?_⟩
  · intro raw resume h
    simp only [derive_query_match]
    rw [if_pos h]
  · intro raw resume h
    simp only [derive_query_rag]
    rw [if_pos h]
  · rintro resume ⟨t, ht, hsub⟩
    simp only [ragScanFallback]
    cases hfind : common_titles_rag.find? (fun t => strHasSub (pyLower resume) t) with
    | none =>
      exfalso
      have := List.find?_eq_none.mp hfind t ht
      simp [hsub] at this
    | some t0 =>
      have ht0 : t0 ∈ common_titles_rag := List.mem_of_find?_eq_some hfind
      cases hskill : common_skills_rag.find? (fun s => strHasSub (pyLower resume) s) with
      | none => exact (pyTitle_rag_vocab_ne t0 ht0).2
      | some s0 => exact (pyTitle_rag_vocab_ne t0 ht0).1 s0

/-- Witness for C8: the `api_match` too-short-query conjunct at concrete
inputs. -/
theorem C8_amended_witness :
    ((cleanupQueryMatch (str ("ok"))).isEmpty ||
      decide ((cleanupQueryMatch (str ("ok"))).length < 3)) = true ∧
    derive_query_match (some (str ("ok"))) (str ("python analyst resume")) =
      str ("software engineer") :=
  ⟨by decide, C8_amended.1 (str ("ok")) (str ("python analyst resume")) (by decide)⟩

/-!
## Claim C2 — local backfill
-/

/-- Claim C2: when local matches exist but none reaches the effective
threshold, the filtered result is exactly the local matches scoring at least
30 percent (in descending order) followed by the external matches that
passed the threshold; in particular every local match at or above 30 percent
is re-admitted and precedes every surviving external match.  The second
conjunct is the spec's P5 instance: one local job at 35 percent against a 50
percent threshold and one external job at 60 percent yields the local job
first, then the external job. -/
theorem C2_backfill :
    (∀ (lms ems : List MatchEntry) (T : ℚ),
      (∀ m ∈ lms, m.source = JobSource.localJob) →
      (∀ m ∈ ems, m.source = JobSource.externalJob) →
      lms ≠ [] →
      (∀ m ∈ lms, m.similarity * 100 < T) →
      thresholdBackfill lms ems T =
        (sortDescBy (fun m => m.similarity) lms).filter
          (fun m => decide ((30:ℚ) ≤ m.similarity * 100)) ++
        (sortDescBy (fun m => m.similarity) ems).filter
          (fun m => decide (T ≤ m.similarity * 100)) ∧
      (∀ m ∈ lms, (30:ℚ) ≤ m.similarity * 100 → m ∈ thresholdBackfill lms ems T)) ∧
    thresholdBackfill [⟨JobSource.localJob, 35/100⟩] [⟨JobSource.externalJob, 60/100⟩] 50 =
      [⟨JobSource.localJob, 35/100⟩, ⟨JobSource.externalJob, 60/100⟩] := by
  constructor
  · intro lms ems T hl he hne hbelow
    have hfL : (sortDescBy (fun m => m.similarity) lms).filter
        (fun m => decide (T ≤ m.similarity * 100)) = [] := by
      apply filter_eq_nil_of_forall
      intro m hm
      have hm' : m ∈ lms := (mem_sortDescBy _ m lms).mp hm
      exact decide_eq_false (not_le.mpr (hbelow m hm'))
    have hExt : ∀ m ∈ (sortDescBy (fun m => m.similarity) ems).filter
        (fun m => decide (T ≤ m.similarity * 100)), m.source = JobSource.externalJob := by
      intro m hm
      have hm' : m ∈ sortDescBy (fun m => m.similarity) ems := List.mem_of_mem_filter hm
      exact he m ((mem_sortDescBy _ m ems).mp hm')
    have hflc : ((sortDescBy (fun m => m.similarity) ems).filter
        (fun m => decide (T ≤ m.similarity * 100))).filter
        (fun m => decide (m.source = JobSource.localJob)) = [] := by
      apply filter_eq_nil_of_forall
      intro m hm
      have := hExt m hm
      simp [this]
    have heq : thresholdBackfill lms ems T =
        (sortDescBy (fun m => m.similarity) lms).filter
          (fun m => decide ((30:ℚ) ≤ m.similarity * 100)) ++
        (sortDescBy (fun m => m.similarity) ems).filter
          (fun m => decide (T ≤ m.similarity * 100)) := by
      simp only [thresholdBackfill]
      rw [List.filter_append, hfL, List.nil_append]
      rw [if_pos ⟨List.length_pos.mpr hne, by rw [hflc]; rfl⟩]
      by_cases h30 : (sortDescBy (fun m => m.similarity) lms).filter
          (fun m => decide ((30:ℚ) ≤ m.similarity * 100)) = []
      · rw [if_pos (by rw [h30]; rfl), h30, List.nil_append]
      · rw [if_neg (by simpa [List.isEmpty_iff] using h30)]
        congr 1
        apply filter_eq_self_of_forall
        intro m hm
        have := hExt m hm
        simp [this]
    refine ⟨heq, ?_⟩
    intro m hm h30m
    rw [heq]
    apply List.mem_append_left
    exact List.mem_filter.mpr ⟨(mem_sortDescBy _ m lms).mpr hm, decide_eq_true h30m⟩
  · have d1 : (decide ((50:ℚ) ≤ 35/100 * 100)) = false := decide_eq_false (by norm_num)
    have d2 : (decide ((50:ℚ) ≤ 60/100 * 100)) = true := decide_eq_true (by norm_num)
    have d3 : (decide ((30:ℚ) ≤ 35/100 * 100)) = true := decide_eq_true (by norm_num)
    simp only [thresholdBackfill, sortDescBy, insertDescBy, List.cons_append, List.nil_append,
      List.filter_cons, List.filter_nil, d1, d2, d3]
    rfl

/-- Witness for C2: the P5-shaped instance applied through the universally
quantified conjunct. -/
theorem C2_backfill_witness :
    ((∀ m ∈ [(⟨JobSource.localJob, 35/100⟩ : MatchEntry)], m.source = JobSource.localJob) ∧
     (∀ m ∈ [(⟨JobSource.externalJob, 60/100⟩ : MatchEntry)], m.source = JobSource.externalJob) ∧
     ([(⟨JobSource.localJob, 35/100⟩ : MatchEntry)] ≠ []) ∧
     (∀ m ∈ [(⟨JobSource.localJob, 35/100⟩ : MatchEntry)], m.similarity * 100 < (50:ℚ))) ∧
    (thresholdBackfill [⟨JobSource.localJob, 35/100⟩] [⟨JobSource.externalJob, 60/100⟩] 50 =
        (sortDescBy (fun m => m.similarity) [(⟨JobSource.localJob, 35/100⟩ : MatchEntry)]).filter
          (fun m => decide ((30:ℚ) ≤ m.similarity * 100)) ++
        (sortDescBy (fun m => m.similarity) [(⟨JobSource.externalJob, 60/100⟩ : MatchEntry)]).filter
          (fun m => decide ((50:ℚ) ≤ m.similarity * 100)) ∧
      (∀ m ∈ [(⟨JobSource.localJob, 35/100⟩ : MatchEntry)], (30:ℚ) ≤ m.similarity * 100 →
        m ∈ thresholdBackfill [⟨JobSource.localJob, 35/100⟩]
          [⟨JobSource.externalJob, 60/100⟩] 50)) :=
  ⟨⟨by simp, by simp, by simp, by intro m hm; simp at hm; subst hm; norm_num⟩,
    C2_backfill.1 [⟨JobSource.localJob, 35/100⟩] [⟨JobSource.externalJob, 60/100⟩] 50
      (by simp) (by simp) (by simp)
      (by intro m hm; simp at hm; subst hm; norm_num)⟩

/-!
## Claim C6 — RAG similarity-floor relaxation
-/

theorem rag_relax_eq (sims : List ℚ) (k : ℕ)
    (hbelow : ∀ s ∈ sims, s < RAG_MIN_SIMILARITY_default) :
    ragSelect sims RAG_MIN_SIMILARITY_default k =
      (sortDescBy (fun p => p.2)
        (sims.enum.filter (fun p => decide ((2:ℚ)/10 ≤ p.2)))).take k := by
  have h03 : sims.enum.filter (fun p => decide (RAG_MIN_SIMILARITY_default ≤ p.2)) = [] := by
    apply filter_eq_nil_of_forall
    intro p hp
    have hmem : p.2 ∈ sims :=
      List.getElem?_mem (List.mem_enum_iff_getElem?.mp hp)
    exact decide_eq_false (not_le.mpr (hbelow p.2 hmem))
  simp only [ragSelect]
  rw [h03]
  rfl

theorem rag_min_le (sims : List ℚ) (k : ℕ) (p : ℕ × ℚ)
    (hp : p ∈ ragSelect sims RAG_MIN_SIMILARITY_default k) : (2:ℚ)/10 ≤ p.2 := by
  simp only [ragSelect] at hp
  by_cases hE : (sims.enum.filter
      (fun q => decide (RAG_MIN_SIMILARITY_default ≤ q.2))).isEmpty = true
  · rw [if_pos hE] at hp
    have h1 := (mem_sortDescBy (fun q => q.2) p _).mp (List.mem_of_mem_take hp)
    exact of_decide_eq_true (List.mem_filter.mp h1).2
  · rw [if_neg hE] at hp
    have h1 := (mem_sortDescBy (fun q => q.2) p _).mp (List.mem_of_mem_take hp)
    have h2 : RAG_MIN_SIMILARITY_default ≤ p.2 :=
      of_decide_eq_true (List.mem_filter.mp h1).2
    calc (2:ℚ)/10 ≤ RAG_MIN_SIMILARITY_default := by norm_num [RAG_MIN_SIMILARITY_default]
      _ ≤ p.2 := h2

theorem rag_relax_nonempty (sims : List ℚ) (k : ℕ)
    (hbelow : ∀ s ∈ sims, s < RAG_MIN_SIMILARITY_default)
    (hex : ∃ s ∈ sims, (2:ℚ)/10 ≤ s) (hk : 1 ≤ k) :
    ragSelect sims RAG_MIN_SIMILARITY_default k ≠ [] := by
  obtain ⟨s, hs, hs2⟩ := hex
  rw [rag_relax_eq sims k hbelow]
  intro hnil
  rcases List.take_eq_nil_iff.mp hnil with hk0 | hsort
  · omega
  · obtain ⟨i, hi, hget⟩ := List.mem_iff_getElem.mp hs
    have henum : (i, s) ∈ sims.enum :=
      List.mem_enum_iff_getElem?.mpr (by rw [List.getElem?_eq_getElem hi, hget])
    have hmemf : (i, s) ∈ sims.enum.filter (fun p => decide ((2:ℚ)/10 ≤ p.2)) :=
      List.mem_filter.mpr ⟨henum, decide_eq_true hs2⟩
    have : (i, s) ∈ sortDescBy (fun p => p.2)
        (sims.enum.filter (fun p => decide ((2:ℚ)/10 ≤ p.2))) :=
      (mem_sortDescBy _ _ _).mpr hmemf
    rw [hsort] at this
    exact absurd this (List.not_mem_nil _)

theorem rag_all_below (sims : List ℚ) (k : ℕ)
    (hbelow : ∀ s ∈ sims, s < (2:ℚ)/10) :
    ragSelect sims RAG_MIN_SIMILARITY_default k = [] := by
  have h02 : sims.enum.filter (fun p => decide ((2:ℚ)/10 ≤ p.2)) = [] := by
    apply filter_eq_nil_of_forall
    intro p hp
    have hmem : p.2 ∈ sims := List.getElem?_mem (List.mem_enum_iff_getElem?.mp hp)
    exact decide_eq_false (not_le.mpr (hbelow p.2 hmem))
  have hbelow3 : ∀ s ∈ sims, s < RAG_MIN_SIMILARITY_default := by
    intro s hs
    calc s < (2:ℚ)/10 := hbelow s hs
      _ ≤ RAG_MIN_SIMILARITY_default := by norm_num [RAG_MIN_SIMILARITY_default]
  rw [rag_relax_eq sims k hbelow3, h02, sortDescBy_nil, List.take_nil]

/-- Claim C6: with the default floor `0.3`, when no candidate reaches the
floor the filter is retried exactly once at floor `0.2` (first conjunct, the
relaxed closed form); every returned candidate scores at least `0.2` and the
floor is never relaxed further (second conjunct); a candidate at or above
`0.2` guarantees a non-empty result (third conjunct, the spec's P7); and when
every candidate is below `0.2` the result is empty — no relaxation below
`0.2` occurs (fourth conjunct). -/
theorem C6_rag_relaxation :
    (∀ (sims : List ℚ) (k : ℕ), (∀ s ∈ sims, s < RAG_MIN_SIMILARITY_default) →
      ragSelect sims RAG_MIN_SIMILARITY_default k =
        (sortDescBy (fun p => p.2)
          (sims.enum.filter (fun p => decide ((2:ℚ)/10 ≤ p.2)))).take k) ∧
    (∀ (sims : List ℚ) (k : ℕ) (p : ℕ × ℚ),
      p ∈ ragSelect sims RAG_MIN_SIMILARITY_default k → (2:ℚ)/10 ≤ p.2) ∧
    (∀ (sims : List ℚ) (k : ℕ), (∀ s ∈ sims, s < RAG_MIN_SIMILARITY_default) →
      (∃ s ∈ sims, (2:ℚ)/10 ≤ s) → 1 ≤ k →
      ragSelect sims RAG_MIN_SIMILARITY_default k ≠ []) ∧
    (∀ (sims : List ℚ) (k : ℕ), (∀ s ∈ sims, s < (2:ℚ)/10) →
      ragSelect sims RAG_MIN_SIMILARITY_default k = []) :=
  ⟨rag_relax_eq, rag_min_le, rag_relax_nonempty, rag_all_below⟩

/-- Witness for C6: the P7 conjunct at one candidate scoring `0.25` against
the `0.3` floor with `top_k = 1`. -/
theorem C6_rag_relaxation_witness :
    ((∀ s ∈ [(1:ℚ)/4], s < RAG_MIN_SIMILARITY_default) ∧
      (∃ s ∈ [(1:ℚ)/4], (2:ℚ)/10 ≤ s) ∧ (1:ℕ) ≤ 1) ∧
    ragSelect [(1:ℚ)/4] RAG_MIN_SIMILARITY_default 1 ≠ [] :=
  ⟨⟨by intro s hs; simp at hs; subst hs; norm_num [RAG_MIN_SIMILARITY_default],
    ⟨(1:ℚ)/4, by simp, by norm_num⟩, le_refl 1⟩,
    C6_rag_relaxation.2.2.1 [(1:ℚ)/4] 1
      (by intro s hs; simp at hs; subst hs; norm_num [RAG_MIN_SIMILARITY_default])
      ⟨(1:ℚ)/4, by simp, by norm_num⟩ (le_refl 1)⟩

/-!
## Claim C1 — embedding unavailability is not fatal to the match
-/

theorem dotQ_replicate_zero : ∀ (w : List ℚ) (n : ℕ), dotQ (List.replicate n 0) w = 0 := by
  intro w
  induction w with
  | nil => intro n; cases n <;> simp [dotQ]
  | cons c w' ih =>
    intro n
    cases n with
    | zero => simp [dotQ]
    | succ m =>
      simp only [List.replicate_succ, dotQ, List.zipWith_cons_cons, List.sum_cons, zero_mul,
        zero_add]
      exact ih m

theorem cosine_similarities_zero_left (n : ℕ) (w : List ℚ) :
    cosine_similarities (List.replicate n 0) w = 0 := by
  rw [cosine_similarities, if_pos (Or.inl (dotQ_replicate_zero _ n))]

theorem roundTo2_zero : roundTo2 0 = 0 := by
  simp [roundTo2]

theorem get_embedding_allfail (u : Bool) (t : Str) (h : ¬(pyStrip t = [])) :
    (get_embedding ⟨u, none, none⟩ t).1 = List.replicate 1536 0 := by
  cases u <;> rw [get_embedding, if_neg h] <;> rfl

theorem pyStrip_idempotent (cs : Str) : pyStrip (pyStrip cs) = pyStrip cs := by
  unfold pyStrip
  have hdecomp : (cs.dropWhile Char.isWhitespace).reverse =
      (cs.dropWhile Char.isWhitespace).reverse.takeWhile Char.isWhitespace ++
        (cs.dropWhile Char.isWhitespace).reverse.dropWhile Char.isWhitespace :=
    (List.takeWhile_append_dropWhile _ _).symm
  have hAeq := congrArg List.reverse hdecomp
  rw [List.reverse_reverse, List.reverse_append] at hAeq
  have hstep1 : ((cs.dropWhile Char.isWhitespace).reverse.dropWhile
      Char.isWhitespace).reverse.dropWhile Char.isWhitespace =
      ((cs.dropWhile Char.isWhitespace).reverse.dropWhile Char.isWhitespace).reverse := by
    cases hRr : ((cs.dropWhile Char.isWhitespace).reverse.dropWhile
        Char.isWhitespace).reverse with
    | nil => rfl
    | cons c rest =>
      have h1 := List.head?_dropWhile_not Char.isWhitespace cs
      have hAhead : (cs.dropWhile Char.isWhitespace).head? = some c := by
        rw [hAeq, hRr]
        rfl
      rw [hAhead] at h1
      have h1' : c.isWhitespace = false := h1
      rw [List.dropWhile_cons]
      simp [h1']
  rw [hstep1, List.reverse_reverse, List.dropWhile_idempotent]

theorem scoreLocalJobs_allfail (u : Bool) (pl jt : Str) (jobs : List LocalJob) :
    ∀ m ∈ scoreLocalJobs ⟨u, none, none⟩ pl jt (List.replicate 1536 0) jobs,
      m.similarity = 0 := by
  intro m hm
  obtain ⟨j, _, hj⟩ := List.mem_filterMap.mp hm
  simp only [scoreLocalJobs] at hj
  split at hj
  · exact absurd hj (by simp)
  · split at hj
    · exact absurd hj (by simp)
    · rw [Option.some.injEq] at hj
      rw [← hj]
      simp only [cosine_similarities_zero_left, zero_mul, roundTo2_zero, zero_div]

theorem thresholdBackfillR_zero (lms : List ScoredMatch) (T : ℝ)
    (hall : ∀ m ∈ lms, m.similarity = 0) (hT : (40:ℝ) ≤ T) :
    thresholdBackfillR lms [] T = [] := by
  have hf : (sortDescBy (fun m => m.similarity) lms).filter
      (fun m => decide (T ≤ m.similarity * 100)) = [] := by
    apply filter_eq_nil_of_forall
    intro m hm
    have h0 := hall m ((mem_sortDescBy _ m lms).mp hm)
    apply decide_eq_false
    rw [h0, zero_mul]
    intro hc
    linarith
  have h30 : (sortDescBy (fun m => m.similarity) lms).filter
      (fun m => decide ((30:ℝ) ≤ m.similarity * 100)) = [] := by
    apply filter_eq_nil_of_forall
    intro m hm
    have h0 := hall m ((mem_sortDescBy _ m lms).mp hm)
    apply decide_eq_false
    rw [h0, zero_mul]
    intro hc
    linarith
  simp only [thresholdBackfillR, sortDescBy_nil, List.append_nil]
  rw [hf]
  by_cases hlms : lms = []
  · subst hlms
    simp [sortDescBy_nil]
  · rw [if_pos ⟨List.length_pos.mpr hlms, by simp⟩, h30]
    rfl

/-- Claim C1 as amended: when no embedding backend succeeds, `get_embedding`
silently returns zero vectors rather than raising, every scored similarity is
zero, and the match endpoint returns an ok response with an empty match list
and a diagnostic message — a structured error is never propagated for
embedding unavailability. -/
theorem C1_amended : ∀ (u : Bool) (pl jt resume : Str) (jobs : List LocalJob) (env : ℚ),
    ¬(pyStrip resume = []) →
    ∃ m, api_match_model ⟨u, none, none⟩ pl jt resume jobs env =
      MatchResp.ok [] (some m) := by
  intro u pl jt resume jobs env hres
  simp only [api_match_model]
  rw [if_neg hres]
  by_cases hjobs : jobs.length = 0
  · rw [if_pos hjobs]
    exact ⟨.earlyNoJobs, rfl⟩
  · rw [if_neg hjobs]
    rw [get_embedding_allfail u (pyStrip resume) (by rw [pyStrip_idempotent]; exact hres)]
    have hzero := scoreLocalJobs_allfail u pl jt jobs
    have hT : (40:ℝ) ≤ ((effectiveThreshold env : ℚ) : ℝ) := by
      have h40 : (40:ℚ) ≤ effectiveThreshold env := le_max_right _ _
      exact_mod_cast h40
    rw [thresholdBackfillR_zero _ _ hzero hT]
    cases hcomb : sortDescBy (fun m => m.similarity)
        (scoreLocalJobs ⟨u, none, none⟩ pl jt (List.replicate 1536 0) jobs) with
    | nil =>
      have hlen : (scoreLocalJobs ⟨u, none, none⟩ pl jt
          (List.replicate 1536 0) jobs).length = 0 := by
        rw [← length_sortDescBy (fun m => m.similarity), hcomb]
        rfl
      rw [List.length_eq_zero] at hlen
      rw [hlen]
      simp only [sortDescBy_nil, List.nil_append, List.length_nil]
      rw [if_pos (by simp), if_neg hjobs]
      exact ⟨.allFilteredOut, rfl⟩
    | cons top rest =>
      exact ⟨.noneMeetThreshold (top.similarity * 100), by rw [List.cons_append]⟩

/-- Witness for C1's amended theorem at a concrete all-backends-failing
request. -/
theorem C1_amended_witness :
    ¬(pyStrip (str ("Python developer resume")) = []) ∧
    ∃ m, api_match_model ⟨false, none, none⟩ [] [] (str ("Python developer resume")) [] 50 =
      MatchResp.ok [] (some m) :=
  ⟨by decide,
    C1_amended false [] [] (str ("Python developer resume")) [] 50 (by decide)⟩

/-- Claim C1 counterexample: with both embedding providers failing (Vertex
enabled but raising, OpenAI raising), `get_embedding` returns the
1536-dimensional zero vector after two provider attempts instead of raising,
and a match request with one well-formed local job returns the ok response
`matches = []` with a `highest match 0%` diagnostic message — not the
structured error the claim requires. -/
theorem C1_counterexample :
    get_embedding ⟨true, none, none⟩ (str ("Experienced Python developer")) =
      (List.replicate 1536 0, 2) ∧
    api_match_model ⟨true, none, none⟩ [] [] (str ("Experienced Python developer"))
      [⟨str ("Senior Python Developer"), str ("Build backend services"),
        [str ("Python")], [], [], none⟩] 50 =
      MatchResp.ok [] (some (MatchMessage.noneMeetThreshold 0)) := by
  constructor
  · rw [get_embedding, if_neg (by decide)]
    rfl
  · have hres : ¬(pyStrip (str ("Experienced Python developer")) = []) := by decide
    simp only [api_match_model]
    rw [if_neg hres, if_neg (by simp)]
    rw [get_embedding_allfail true _ (by decide)]
    have hscore : scoreLocalJobs ⟨true, none, none⟩ [] [] (List.replicate 1536 0)
        [⟨str ("Senior Python Developer"), str ("Build backend services"),
          [str ("Python")], [], [], none⟩] =
        [⟨str ("Senior Python Developer"), JobSource.localJob, 0⟩] := by
      simp only [scoreLocalJobs, List.filterMap_cons, List.filterMap_nil]
      rw [if_neg (by decide), if_neg (by decide)]
      rw [cosine_similarities_zero_left 1536]
      norm_num [roundTo2]
    rw [hscore]
    have hT : (40:ℝ) ≤ ((effectiveThreshold 50 : ℚ) : ℝ) := by
      norm_num [effectiveThreshold]
    rw [thresholdBackfillR_zero _ _ (by intro m hm; simp at hm; subst hm; rfl) hT]
    simp only [sortDescBy, insertDescBy, List.cons_append, List.nil_append]
    norm_num

/-!
## Model evaluation checks

Concrete evaluations of the embedded definitions, each cross-checked against
the behaviour of the corresponding CPython code.
-/

/-- String helpers agree with Python `strip`, `in`, `split()` and `title()`
on representative inputs. -/
theorem string_helpers_eval :
    pyStrip (str (" ab ")) = str ("ab") ∧
    strHasSub (str ("cook prepare meals")) (str ("any")) = false ∧
    strHasSub (str ("company")) (str ("any")) = true ∧
    pySplitWs (str (" a  bc ")) = [str ("a"), str ("bc")] ∧
    pyTitle (str ("engineer")) = str ("Engineer") ∧
    pyTitle (str ("machine learning")) = str ("Machine Learning") := by
  decide

/-- The keyword regex model agrees with
`re.findall(r'\b[A-Z][a-zA-Z]+\b', ...)` on a prompt mixing digits,
underscores and lowercase words. -/
theorem regexCapitalizedWords_eval :
    regexCapitalizedWords (str ("Analyze this Resume for Python3 jobs_x Hello")) =
      [str ("Analyze"), str ("Resume"), str ("Hello")] := by
  decide

/-- Query cleanup and the two fallback scans agree with the Python code on
representative inputs. -/
theorem query_derivation_eval :
    cleanupQueryMatch (str ("  Query: Senior Java Backend Developer Spring Boot now  ")) =
      str ("Senior Java Backend Developer Spring") ∧
    matchScanFallback (str ("senior developer with java experience")) =
      str ("Developer senior developer") ∧
    derive_query_rag (some (str ("ab"))) (str ("senior developer with java experience")) =
      str ("Developer Java") ∧
    derive_query_rag none (str ("senior developer with java experience")) =
      str ("Software Engineer") := by
  decide

/-- The embedded `json.loads` agrees with Python on a well-formed object, on
the unparseable brace span, and on the empty string. -/
theorem jsonLoads_eval :
    jsonLoads (str ("\x7b\x22score\x22: 85, \x22explanation\x22: \x22good match\x22\x7d")) =
      .ok (.jobj [(str ("score"), .jnum 85), (str ("explanation"), .jstr (str ("good match")))]) ∧
    jsonLoads (str ("\x7bnot json\x7d")) =
      .error (str ("Expecting property name enclosed in double quotes")) ∧
    jsonLoads (str ("")) = .error (str ("Expecting value")) := by
  refine ⟨rfl, rfl, rfl⟩

/-- The rerank parse step on a successful structured response: the numeric
score is extracted and the explanation is the parsed field. -/
theorem processRerank_success_eval :
    processRerank (str ("score \x7b\x22score\x22: 85, \x22explanation\x22: \x22good match\x22\x7d end")) =
      ⟨some 85, .jstr (str ("good match"))⟩ := by
  rfl

end Novum
